import Mathlib

/-!
Verification of the deferred-value-cell ("promise") library in
`src/promise.js` (plus `src/adapter.js`), as a shallow embedding.

Modelling choices, traced to the source:

* A cell (`Promise` in the source) is a record of the fields set up in the
  constructor (src/promise.js lines 19-60): `_state`, the two containers
  `_valueContainer` / `_reasonContainer`, and the two observer queues
  `_onFulfilleds` / `_onRejecteds`.  Queued callbacks are represented by
  abstract identifiers (`Nat`); invoking a queued wrapper is recorded as a
  pair `(identifier, argument)` in the list of synchronous invocations a
  call performs, because in this implementation every dispatch happens
  synchronously inside the triggering call (`_callSuccessFunctions`,
  `_callFailureFunctions`, lines 293-308, use a plain `forEach`; there is
  no deferral mechanism anywhere in the file).
* `_setValue` / `_setReason` (lines 241-247 and 267-273) throw when their
  container is already populated; the embedding records that throw in a
  boolean field `doubleSet` instead of an exception monad, so that "the
  throw branch fired" is directly observable on the resulting cell.
* A value handed to `resolve` is classified by the shape the resolution
  procedure (lines 69-118) actually inspects: the cell itself, a primitive,
  another `Promise` instance, a non-thenable object (this includes arrays
  and `Error` objects), an object whose `then` getter throws, or a thenable
  whose callable `then` synchronously invokes the two provided callbacks a
  number of times and optionally ends by throwing.  Nested invocations a
  thenable makes through the provided `resolve.bind(this)` /
  `reject.bind(this)` callbacks are synchronous re-entries into the same
  cell's `resolve` / `reject`, and are modelled exactly so.
* Line 76 compares `value == this` with JavaScript LOOSE equality, not
  `===`.  For two objects `==` is reference identity, but for a primitive
  against an object, `==` coerces the object with `ToPrimitive`: a
  `Promise` instance has no own `valueOf`/`toString`, so `ToPrimitive`
  yields the string `"[object Object]"`.  Hence the string
  `"[object Object]"` compares loosely equal to every `Promise` instance,
  a number compares via `ToNumber("[object Object]") = NaN` (never equal),
  a boolean coerces to a number first (never equal), and `null` /
  `undefined` are never loosely equal to an object.  `looseEqSelf` encodes
  exactly this.
-/

namespace Promises

/-- The three states a promise can be in (src/promise.js lines 5-9). -/
inductive State where
  | pending
  | fulfilled
  | rejected
  deriving DecidableEq, Repr

/-- JavaScript runtime values, restricted to the shapes the library ever
stores or passes: primitives, references to promise cells, and error
objects (`TypeError` kept apart because the self-resolution branch on line
77 constructs one). -/
inductive Val where
  | undefined
  | nullV
  | boolean (b : Bool)
  | num (n : Int)
  | str (s : String)
  | promiseRef (id : Nat)
  | typeError (msg : String)
  | errObj (msg : String)
  deriving DecidableEq, Repr

/-- A promise cell: the fields initialised by the constructor
(src/promise.js lines 19-60), plus `doubleSet`, which records whether the
`throw` branch of `_setValue` (line 243) or `_setReason` (line 269) fired.
Queued observer wrappers are abstract identifiers. -/
structure Cell where
  state : State
  valueContainer : Option Val
  reasonContainer : Option Val
  onFulfilleds : List Nat
  onRejecteds : List Nat
  doubleSet : Bool
  deriving DecidableEq, Repr

/-- A freshly constructed promise (constructor body, lines 19-60, with no
executor argument): pending, both containers null, both queues empty. -/
def newCell : Cell :=
  { state := .pending, valueContainer := none, reasonContainer := none,
    onFulfilleds := [], onRejecteds := [], doubleSet := false }

mutual
/-- The classification of an argument to `resolve`, by the shape the
resolution procedure (src/promise.js lines 69-118) inspects. -/
inductive RVal where
  /-- The cell itself: `value == this` holds by reference identity. -/
  | selfRef : RVal
  /-- A primitive that is not an object or function: `typeof value` is
  neither.  (Note `Val.str "[object Object]"` is still a primitive, but it
  is caught earlier by the loose `value == this` check on line 76.) -/
  | prim (v : Val) : RVal
  /-- Another `Promise` instance (a different object, so `value == this`
  is false): `value instanceof Promise` holds, line 82. -/
  | promiseRef (id : Nat) : RVal
  /-- An object (or function) whose `then` member is not callable and
  whose `then` access does not throw.  Arrays and `Error` objects fall
  here. -/
  | objNoThen (id : Nat) : RVal
  /-- An object for which reading `value.then` throws `e` (line 92), or
  the value `null` (for which `typeof value == 'object'` holds and
  `null.then` throws a `TypeError`). -/
  | objThenGetThrows (e : Val) : RVal
  /-- An object with a callable `then`: when invoked (line 103) it
  synchronously performs `calls` through the two callbacks it was handed
  (each a bound `this.resolve` or `this.reject`), and afterwards throws
  `thrown` if that is `some`. -/
  | thenable (calls : List NCall) (thrown : Option Val) : RVal

/-- One synchronous call a thenable's `then` makes through the callbacks
`this.resolve.bind(this)` / `this.reject.bind(this)` handed to it on
line 103. -/
inductive NCall where
  | res (v : RVal) : NCall
  | rej (e : Val) : NCall
end

/-- The loose-equality test `value == this` of src/promise.js line 76,
where `this` is a `Promise` instance (an ordinary object).  Reference
identity for objects; for a primitive, JavaScript `==` coerces the object
via `ToPrimitive`, which for a `Promise` instance yields the string
`"[object Object]"` (no own `valueOf`/`toString`).  A string is therefore
loosely equal to the cell exactly when it is `"[object Object]"`; numbers
compare against `ToNumber("[object Object]") = NaN` and booleans coerce to
numbers first, so neither ever matches; `null` and `undefined` are never
loosely equal to an object. -/
def looseEqSelf : RVal → Bool
  | .selfRef => true
  | .prim (.str s) => s = "[object Object]"
  | _ => false

/-- `Promise.prototype._setValue` (src/promise.js lines 241-247): throws
when the container is already populated (recorded in `doubleSet`),
otherwise stores the value. -/
def setValue (c : Cell) (value : Val) : Cell :=
  if c.valueContainer ≠ none then { c with doubleSet := true }
  else { c with valueContainer := some value }

/-- `Promise.prototype._setReason` (src/promise.js lines 267-273):
symmetric to `setValue`. -/
def setReason (c : Cell) (reason : Val) : Cell :=
  if c.reasonContainer ≠ none then { c with doubleSet := true }
  else { c with reasonContainer := some reason }

/-- `Promise.prototype._getValue` (src/promise.js lines 254-260): returns
the stored value.  The `none` branch throws in the source; it is
unreachable from `then`, which only calls `_getValue` when the state is
`fulfilled` (the container invariant is proved below), and is mapped to
`undefined` here to keep the function total. -/
def getValue (c : Cell) : Val :=
  match c.valueContainer with
  | some v => v
  | none => .undefined

/-- `Promise.prototype._getReason` (src/promise.js lines 280-286).  The
`none` branch throws in the source (unreachable from `then`, which guards
on the rejected state).  In the populated branch, line 285 of the source
reads `this._reasonContainer.REASON` WITHOUT a `return` statement, so the
function evaluates the member and then returns `undefined`.  The stored
reason is never returned. -/
def getReason (c : Cell) : Val :=
  match c.reasonContainer with
  | some _ => .undefined
  | none => .undefined

/-- The reason constructed on src/promise.js line 77. -/
def selfResolutionError : Val := .typeError "Cannot resolve a promise with itself"

/-- `Promise.prototype._callSuccessFunctions` (src/promise.js lines
293-297): a plain synchronous `forEach` over the queued wrappers, each
invoked with the value.  The embedding returns the list of synchronous
invocations, in queue order. -/
def callSuccessFunctions (c : Cell) (value : Val) : List (Nat × Val) :=
  c.onFulfilleds.map fun id => (id, value)

/-- `Promise.prototype._callFailureFunctions` (src/promise.js lines
304-308): symmetric. -/
def callFailureFunctions (c : Cell) (reason : Val) : List (Nat × Val) :=
  c.onRejecteds.map fun id => (id, reason)

/-- `Promise.prototype.reject` (src/promise.js lines 125-133): no-op
unless pending; otherwise set the state to rejected, store the reason, and
synchronously invoke every queued failure wrapper with the reason.
Returns the updated cell and the list of wrapper invocations the call
performs synchronously. -/
def reject (c : Cell) (reason : Val) : Cell × List (Nat × Val) :=
  if c.state ≠ State.pending then (c, [])
  else
    let c1 : Cell := { c with state := State.rejected }
    let c2 := setReason c1 reason
    (c2, callFailureFunctions c2 reason)

mutual
/-- `Promise.prototype.resolve` (src/promise.js lines 69-118), the
resolution procedure.  In source order:
* line 70: no-op unless pending;
* line 76: if `value == this` (loose equality, see `looseEqSelf`), reject
  with the self-resolution `TypeError`;
* line 82: if `value instanceof Promise`, `_adopt` it — adoption (line
  233) calls `promise.then` with this cell's bound `resolve`/`reject`:
  on a pending adoptee this only registers on the other promise, and on
  an already-settled adoptee the wrapper re-enters this cell's
  `resolve`/`reject` synchronously; such re-entries are modelled as
  further `resolve`/`reject` applications to this cell (as in `Op`
  sequences), not folded into this branch;
* lines 88-111: if `value` is an object or function: reading `value.then`
  may throw (reject with the thrown error); if `then` is callable, invoke
  it — the invocation synchronously re-enters this cell's
  `resolve`/`reject` through the two bound callbacks, and if the
  invocation itself ends by throwing, the `catch` on line 104 calls
  `this.reject` with the thrown error; in every object case the branch
  ends with the `return` on line 110, so a non-thenable object never
  fulfils the cell;
* lines 115-117: otherwise (a primitive) set the state to fulfilled,
  store the value, and synchronously invoke every queued success wrapper.
Returns the updated cell and the wrapper invocations performed
synchronously during the call, in order. -/
def resolve (c : Cell) (value : RVal) : Cell × List (Nat × Val) :=
  if c.state ≠ State.pending then (c, [])
  else if looseEqSelf value then reject c selfResolutionError
  else
    match value with
    | .selfRef => (c, [])
    | .promiseRef _ => (c, [])
    | .objThenGetThrows e => reject c e
    | .objNoThen _ => (c, [])
    | .thenable calls thrown =>
      let r := runCalls c calls
      match thrown with
      | some e =>
        let r2 := reject r.1 e
        (r2.1, r.2 ++ r2.2)
      | none => r
    | .prim v =>
      let c1 : Cell := { c with state := State.fulfilled }
      let c2 := setValue c1 v
      (c2, callSuccessFunctions c2 v)

/-- The sequence of synchronous re-entries a thenable's `then` performs
through the callbacks handed to it on src/promise.js line 103, applied in
order, accumulating the wrapper invocations each one performs. -/
def runCalls (c : Cell) (calls : List NCall) : Cell × List (Nat × Val) :=
  match calls with
  | [] => (c, [])
  | nc :: rest =>
    let r1 :=
      match nc with
      | .res v => resolve c v
      | .rej e => reject c e
    let r2 := runCalls r1.1 rest
    (r2.1, r1.2 ++ r2.2)
end

/-- `Promise.prototype.then` (src/promise.js lines 144-199), restricted to
its effect on the RECEIVER cell and to the wrapper invocations the call
performs synchronously.  The handlers are abstract identifiers
(`some id` when the handler is a function, `none` otherwise); the wrapper
built by `makeWrapper` passes the argument straight to the handler, so an
invocation of the wrapper with argument `a` is an invocation of the
handler with `a`.  In source order:
* lines 161-172: a callable `onFulfilled` is pushed onto `_onFulfilleds`
  when the receiver is pending, and invoked immediately (synchronously,
  inside the `then` call) with `_getValue()` when the receiver is already
  fulfilled;
* lines 176-178: a non-callable `onFulfilled` on a fulfilled receiver
  resolves the new promise — no receiver mutation, no handler invocation;
* lines 180-191: symmetric for `onRejected`, invoked immediately with
  `_getReason()` when the receiver is already rejected;
* lines 195-197: a non-callable `onRejected` on a rejected receiver
  rejects the new promise — no receiver mutation, no handler invocation.
The new promise returned by `then` is a fresh cell with no observers; its
own settlement is by `resolve`/`reject` and is not tracked here. -/
def thenCall (c : Cell) (onFulfilled onRejected : Option Nat) :
    Cell × List (Nat × Val) :=
  let r1 : Cell × List (Nat × Val) :=
    match onFulfilled with
    | some fId =>
      if c.state = State.pending then
        ({ c with onFulfilleds := c.onFulfilleds ++ [fId] }, [])
      else if c.state = State.fulfilled then (c, [(fId, getValue c)])
      else (c, [])
    | none => (c, [])
  match onRejected with
  | some rId =>
    if r1.1.state = State.pending then
      ({ r1.1 with onRejecteds := r1.1.onRejecteds ++ [rId] }, r1.2)
    else if r1.1.state = State.rejected then
      (r1.1, r1.2 ++ [(rId, getReason r1.1)])
    else r1
  | none => r1

/-- `Promise.prototype.catch` (src/promise.js lines 209-211):
`this.then(null, onRejected)`. -/
def catchCall (c : Cell) (onRejected : Option Nat) : Cell × List (Nat × Val) :=
  thenCall c none onRejected

/-- One public-interface operation applied to a given cell: a `succeed`
(`resolve`) call, a `fail` (`reject`) call, or a `then`/`catch`
registration against it.  (`catch` is `then null onRejected`; the
combinators `all` and `race` touch cells only through these same three
entry points, so a sequence of `Op`s covers every mutation of one cell
that the public interface can cause.) -/
inductive Op where
  | succeed (v : RVal)
  | fail (r : Val)
  | thenOp (onFulfilled onRejected : Option Nat)

/-- Apply one operation to a cell (discarding the synchronous-invocation
trace, which does not affect the cell's own fields). -/
def applyOp (c : Cell) (op : Op) : Cell :=
  match op with
  | .succeed v => (resolve c v).1
  | .fail r => (reject c r).1
  | .thenOp f r => (thenCall c f r).1

/-- Apply a sequence of operations in order. -/
def runOps (c : Cell) (ops : List Op) : Cell :=
  match ops with
  | [] => c
  | op :: rest => runOps (applyOp c op) rest

/-- The settled value of a cell, mapped into `RVal` for re-resolution: a
reference to a promise is adopted (line 82), primitives are primitives,
and `Error` objects are objects without a callable `then`.  Used by the
combinators, whose success callbacks feed a received value back into
`resolve`. -/
def valToRVal : Val → RVal
  | .promiseRef id => .promiseRef id
  | .typeError _ => .objNoThen 0
  | .errObj _ => .objNoThen 0
  | .nullV => .objThenGetThrows (.typeError "Cannot read property then of null")
  | v => .prim v

/-- The value a static helper returns to its caller, paired with the cell
it constructed (and discarded).  `Promise.resolve` (src/promise.js lines
384-386) is `return new Promise().resolve(value)`: every exit path of
`Promise.prototype.resolve` (lines 71, 78, 84, 96, 110, and falling off
the end at line 118) is a bare `return`, so the prototype method — and
hence the static — returns `undefined`, not the promise. -/
structure StaticResult where
  created : Cell
  ret : Val
  deriving DecidableEq, Repr

/-- `Promise.resolve` (src/promise.js lines 384-386). -/
def staticResolve (value : RVal) : StaticResult :=
  { created := (resolve newCell value).1, ret := .undefined }

/-- `Promise.reject` (src/promise.js lines 374-376):
`return new Promise().reject(reason)`; `Promise.prototype.reject` has no
`return` with a value either, so the static returns `undefined`. -/
def staticReject (reason : Val) : StaticResult :=
  { created := (reject newCell reason).1, ret := .undefined }

/-- `exports.resolved` of src/adapter.js (line 3): the very function
`Promise.resolve`. -/
def adapterResolved : RVal → StaticResult := staticResolve

/-- `exports.rejected` of src/adapter.js (line 5): the very function
`Promise.reject`. -/
def adapterRejected : Val → StaticResult := staticReject

/-- An element of the array handed to `Promise.all` / `Promise.race`: a
promise cell, or a plain value that is neither a `Promise` instance nor a
thenable.  For a plain value `v` the combinator's `promise.then(...)` call
(src/promise.js lines 323, 349) throws a `TypeError` — either `v.then` is
`undefined` and calling it is a type error, or `v` is `null`/`undefined`
and even the property access throws. -/
inductive AInput where
  | cell (c : Cell)
  | plain (v : Val)

/-- The `TypeError` thrown when the combinators call `.then` on an input
that has no callable `then` member. -/
def thenNotAFunction : Val := .typeError "promise.then is not a function"

/-- The running state of the synchronous pass `Promise.all` performs over
its input array (src/promise.js lines 317-335): the result cell created by
`new Promise`, the closure variables `promisesLeft` and `resultArr`, the
indices of pending inputs onto whose queues the two callbacks were pushed,
and the exception (if any) that escaped the `forEach` — the executor's
throw is caught by `_execute` (lines 218-224), which rejects the result
cell with it. -/
structure AllRun where
  result : Cell
  promisesLeft : Nat
  resultArr : List (Option Val)
  registered : List Nat
  thrown : Option Val
  deriving Repr

/-- The body of the success callback `Promise.all` hands to each input's
`then` (src/promise.js lines 323-329), run synchronously when the input is
already fulfilled: store the value at index `i`, decrement `promisesLeft`,
and when it reaches zero call `resolve(resultArr)` on the result cell.
`resultArr` is an array — an object with no callable `then` — so that
final `resolve` takes the object branch of the resolution procedure and
returns at line 110 WITHOUT fulfilling the result cell. -/
def allOnFulfilled (st : AllRun) (i : Nat) (value : Val) : AllRun :=
  let arr := st.resultArr.set i (some value)
  let left := st.promisesLeft - 1
  if left = 0 then
    { st with result := (resolve st.result (.objNoThen 0)).1,
              promisesLeft := left, resultArr := arr }
  else { st with promisesLeft := left, resultArr := arr }

/-- One step of the `forEach` in `Promise.all` (src/promise.js lines
322-333) at index `i`: call `input.then(successCb, failureCb)`.  A pending
input gets both wrappers queued (recorded in `registered`); an already
fulfilled input runs the success callback synchronously with
`_getValue()`; an already rejected input runs the failure callback
synchronously with `_getReason()` — which is `undefined`, see `getReason`
— rejecting the result cell with it; a plain input throws a `TypeError`,
which aborts the `forEach`. -/
def allStep (st : AllRun) (i : Nat) (input : AInput) : AllRun :=
  match input with
  | .plain _ => { st with thrown := some thenNotAFunction }
  | .cell c =>
    if c.state = State.pending then { st with registered := st.registered ++ [i] }
    else if c.state = State.fulfilled then allOnFulfilled st i (getValue c)
    else { st with result := (reject st.result (getReason c)).1 }

/-- The `forEach` loop of `Promise.all`, aborting when a step has thrown
(an exception propagates out of `forEach` at once). -/
def allLoop (st : AllRun) (i : Nat) (inputs : List AInput) : AllRun :=
  match inputs with
  | [] => st
  | input :: rest =>
    let st1 := allStep st i input
    match st1.thrown with
    | some _ => st1
    | none => allLoop st1 (i + 1) rest

/-- `Promise.all` (src/promise.js lines 317-335): create a pending result
cell, set `promisesLeft` to the input length and `resultArr` to a sparse
array of that length, run the `forEach`, and — per `_execute`, lines
218-224 — reject the result cell with any exception the executor threw.
With an empty input array the `forEach` body never runs, so `resolve` is
never called and the result cell simply stays pending. -/
def promiseAll (inputs : List AInput) : AllRun :=
  let st : AllRun :=
    { result := newCell, promisesLeft := inputs.length,
      resultArr := List.replicate inputs.length none,
      registered := [], thrown := none }
  let st1 := allLoop st 0 inputs
  match st1.thrown with
  | some e => { st1 with result := (reject st1.result e).1 }
  | none => st1

/-- The running state of the synchronous pass `Promise.race` performs over
its input array (src/promise.js lines 344-366): the result cell, the
closure flag `finished`, the indices of pending inputs that got the two
wrappers queued, and any exception that escaped the `forEach`. -/
structure RaceRun where
  result : Cell
  finished : Bool
  registered : List Nat
  thrown : Option Val
  deriving Repr

/-- One step of the `forEach` in `Promise.race` (src/promise.js lines
348-364) at index `i`: call `input.then(onValue, onReason)`.  An already
fulfilled input runs the success callback synchronously with
`_getValue()`: unless `finished` is already set, it sets `finished` and
calls `resolve` on the result cell with the value.  An already rejected
input runs the failure callback with `_getReason()` — `undefined`, see
`getReason` — and calls `reject` with it.  A pending input queues both
wrappers; a plain input throws. -/
def raceStep (st : RaceRun) (i : Nat) (input : AInput) : RaceRun :=
  match input with
  | .plain _ => { st with thrown := some thenNotAFunction }
  | .cell c =>
    if c.state = State.pending then { st with registered := st.registered ++ [i] }
    else if c.state = State.fulfilled then
      if st.finished then st
      else { st with finished := true,
                     result := (resolve st.result (valToRVal (getValue c))).1 }
    else
      if st.finished then st
      else { st with finished := true,
                     result := (reject st.result (getReason c)).1 }

/-- The `forEach` loop of `Promise.race`, aborting on a throw. -/
def raceLoop (st : RaceRun) (i : Nat) (inputs : List AInput) : RaceRun :=
  match inputs with
  | [] => st
  | input :: rest =>
    let st1 := raceStep st i input
    match st1.thrown with
    | some _ => st1
    | none => raceLoop st1 (i + 1) rest

/-- `Promise.race` (src/promise.js lines 344-366): create a pending result
cell with `finished := false`, run the `forEach`, and reject the result
cell with any exception the executor threw (`_execute`, lines 218-224). -/
def promiseRace (inputs : List AInput) : RaceRun :=
  let st : RaceRun :=
    { result := newCell, finished := false, registered := [], thrown := none }
  let st1 := raceLoop st 0 inputs
  match st1.thrown with
  | some e => { st1 with result := (reject st1.result e).1 }
  | none => st1

/-- The safety invariant of a cell's settlement fields: the double-set
throw of `_setValue`/`_setReason` has never fired, the value container is
populated exactly when the state is fulfilled, and the reason container
exactly when the state is rejected. -/
def CellInv (c : Cell) : Prop :=
  c.doubleSet = false ∧
  (c.valueContainer.isSome ↔ c.state = State.fulfilled) ∧
  (c.reasonContainer.isSome ↔ c.state = State.rejected)

/-- A cell already fulfilled with the number 5 (reachable as
`(resolve newCell (.prim (.num 5))).1`). -/
def fulfilledFive : Cell :=
  { newCell with state := State.fulfilled, valueContainer := some (.num 5) }

/-- A cell already rejected with the error object carrying message "boom"
(reachable as `(reject newCell (.errObj "boom")).1`). -/
def rejectedBoomCell : Cell :=
  { newCell with state := State.rejected, reasonContainer := some (.errObj "boom") }

/-- A pending cell with one queued fulfillment observer and one queued
rejection observer (reachable as
`(thenCall newCell (some 0) (some 1)).1`). -/
def pendingObserved : Cell :=
  { newCell with onFulfilleds := [0], onRejecteds := [1] }

theorem inv_newCell : CellInv newCell := by
  simp [CellInv, newCell]

theorem reject_inv (c : Cell) (r : Val) (h : CellInv c) : CellInv (reject c r).1 := by
  obtain ⟨h1, h2, h3⟩ := h
  unfold reject
  split
  · exact ⟨h1, h2, h3⟩
  · rename_i hp
    simp only [ne_eq, not_not] at hp
    have hr : c.reasonContainer = none := by
      cases hx : c.reasonContainer with
      | none => rfl
      | some v => simp [hx, hp] at h3
    simp [setReason, hr, CellInv, h1, hp] at *
    simpa [hp] using h2

mutual
theorem resolve_inv (c : Cell) (v : RVal) (h : CellInv c) : CellInv (resolve c v).1 := by
  unfold resolve
  split
  · exact h
  · rename_i hp
    simp only [ne_eq, not_not] at hp
    split
    · exact reject_inv c selfResolutionError h
    · match v with
      | .selfRef => exact h
      | .promiseRef _ => exact h
      | .objThenGetThrows e => exact reject_inv c e h
      | .objNoThen _ => exact h
      | .thenable calls thrown =>
        have h1 := runCalls_inv c calls h
        match thrown with
        | some e => exact reject_inv _ e h1
        | none => exact h1
      | .prim pv =>
        obtain ⟨h1, h2, h3⟩ := h
        have hv : c.valueContainer = none := by
          cases hx : c.valueContainer with
          | none => rfl
          | some w => simp [hx, hp] at h2
        simp [setValue, hv, CellInv, h1, hp]
        simpa [hp] using h3

theorem runCalls_inv (c : Cell) (calls : List NCall) (h : CellInv c) :
    CellInv (runCalls c calls).1 := by
  match calls with
  | [] => exact h
  | nc :: rest =>
    unfold runCalls
    match nc with
    | .res v => exact runCalls_inv _ rest (resolve_inv c v h)
    | .rej e => exact runCalls_inv _ rest (reject_inv c e h)
end

theorem thenCall_fields (c : Cell) (f r : Option Nat) :
    (thenCall c f r).1.state = c.state ∧
    (thenCall c f r).1.valueContainer = c.valueContainer ∧
    (thenCall c f r).1.reasonContainer = c.reasonContainer ∧
    (thenCall c f r).1.doubleSet = c.doubleSet := by
  unfold thenCall
  rcases f with _ | fId <;> rcases r with _ | rId <;> dsimp only <;>
    first
      | exact ⟨rfl, rfl, rfl, rfl⟩
      | (split_ifs <;> simp_all)

theorem thenCall_inv (c : Cell) (f r : Option Nat) (h : CellInv c) :
    CellInv (thenCall c f r).1 := by
  obtain ⟨hf1, hf2, hf3, hf4⟩ := thenCall_fields c f r
  obtain ⟨h1, h2, h3⟩ := h
  exact ⟨by rw [hf4, h1], by rw [hf2, hf1]; exact h2, by rw [hf3, hf1]; exact h3⟩

theorem applyOp_inv (c : Cell) (op : Op) (h : CellInv c) : CellInv (applyOp c op) := by
  cases op with
  | succeed v => exact resolve_inv c v h
  | fail r => exact reject_inv c r h
  | thenOp f r => exact thenCall_inv c f r h

theorem runOps_inv (c : Cell) (ops : List Op) (h : CellInv c) : CellInv (runOps c ops) := by
  induction ops generalizing c with
  | nil => exact h
  | cons op rest ih => exact ih _ (applyOp_inv c op h)

theorem resolve_settled (c : Cell) (v : RVal) (h : c.state ≠ State.pending) :
    resolve c v = (c, []) := by
  unfold resolve
  simp [h]

theorem reject_settled (c : Cell) (r : Val) (h : c.state ≠ State.pending) :
    reject c r = (c, []) := by
  unfold reject
  simp [h]

theorem thenCall_settled (c : Cell) (f r : Option Nat) (h : c.state ≠ State.pending) :
    (thenCall c f r).1 = c := by
  unfold thenCall
  rcases f with _ | fId <;> rcases r with _ | rId <;> dsimp only <;>
    first
      | rfl
      | (split_ifs <;> simp_all)

theorem applyOp_settled (c : Cell) (op : Op) (h : c.state ≠ State.pending) :
    applyOp c op = c := by
  cases op with
  | succeed v => simp [applyOp, resolve_settled c v h]
  | fail r => simp [applyOp, reject_settled c r h]
  | thenOp f r => simp [applyOp, thenCall_settled c f r h]

theorem runOps_settled (c : Cell) (ops : List Op) (h : c.state ≠ State.pending) :
    runOps c ops = c := by
  induction ops with
  | nil => rfl
  | cons op rest ih => simp [runOps, applyOp_settled c op h, ih]

/-- C1: once a cell is settled (its state is no longer pending), any
further sequence of `succeed`, `fail`, `then` or `catch` operations
against it leaves its state, its settled value container and its settled
reason container unchanged — `resolve` (src/promise.js line 70) and
`reject` (line 126) return immediately on a non-pending cell, and `then`
never writes to those fields. -/
theorem settled_cell_frozen (c : Cell) (h : c.state ≠ State.pending) (ops : List Op) :
    (runOps c ops).state = c.state ∧
    (runOps c ops).valueContainer = c.valueContainer ∧
    (runOps c ops).reasonContainer = c.reasonContainer := by
  rw [runOps_settled c ops h]
  exact ⟨rfl, rfl, rfl⟩

/-- Witness for C1 at a concrete input: a cell fulfilled with 5, hit with
a further `fail`, a further `succeed` and a `then` registration, keeps its
state, value and reason. -/
theorem settled_cell_frozen_witness :
    (runOps fulfilledFive
        [.fail (.errObj "late"), .succeed (.prim (.num 9)), .thenOp (some 0) (some 1)]).state
      = fulfilledFive.state ∧
    (runOps fulfilledFive
        [.fail (.errObj "late"), .succeed (.prim (.num 9)), .thenOp (some 0) (some 1)]).valueContainer
      = fulfilledFive.valueContainer ∧
    (runOps fulfilledFive
        [.fail (.errObj "late"), .succeed (.prim (.num 9)), .thenOp (some 0) (some 1)]).reasonContainer
      = fulfilledFive.reasonContainer :=
  settled_cell_frozen fulfilledFive (by decide)
    [.fail (.errObj "late"), .succeed (.prim (.num 9)), .thenOp (some 0) (some 1)]

/-- C2 counterexample: dispatch is NOT deferred.  A pending cell with one
queued fulfillment observer (queued by a prior `then`) has that observer
invoked synchronously INSIDE the `succeed` call that fulfils it: the
`resolve` call's own synchronous-invocation trace already contains the
observer applied to the value (src/promise.js line 117 calls
`_callSuccessFunctions`, a plain `forEach`, before `resolve` returns).
This refutes the claim that every observer runs on a later turn than the
triggering call. -/
theorem sync_dispatch_cex :
    (resolve pendingObserved (.prim (.str "v"))).2 = [(0, Val.str "v")] := by decide

/-- C2 (amended): dispatch is synchronous, never deferred.  Fulfilling a
pending cell with a plain value invokes every queued fulfillment observer
synchronously inside the `succeed` call, in FIFO order with the value;
`fail` likewise invokes every queued rejection observer synchronously with
the reason; and `then` on an already-settled cell invokes the relevant
continuation synchronously inside the `then` call itself — the
fulfillment continuation with `_getValue()` on an already-fulfilled
receiver (src/promise.js lines 170-171), and the rejection continuation
with `_getReason()` on an already-rejected receiver (lines 189-190). -/
theorem sync_dispatch_amended (c d e : Cell) (v r : Val) (fId rId : Nat)
    (hp : c.state = State.pending) (hv : looseEqSelf (.prim v) = false)
    (hd : d.state = State.fulfilled) (he : e.state = State.rejected) :
    (resolve c (.prim v)).2 = c.onFulfilleds.map (fun id => (id, v)) ∧
    (reject c r).2 = c.onRejecteds.map (fun id => (id, r)) ∧
    (thenCall d (some fId) none).2 = [(fId, getValue d)] ∧
    (thenCall e none (some rId)).2 = [(rId, getReason e)] := by
  refine ⟨?_, ?_, ?_, ?_⟩
  · unfold resolve
    simp only [hp, hv]
    simp [setValue, callSuccessFunctions]
    split_ifs <;> rfl
  · unfold reject
    simp only [hp]
    simp [setReason, callFailureFunctions]
    split_ifs <;> rfl
  · unfold thenCall
    simp [hd]
  · unfold thenCall
    simp [he]

/-- Witness for the amended C2 at concrete inputs: a pending cell with
queues `[0]` and `[1]`, a cell fulfilled with 5, and a cell rejected with
the error "boom". -/
theorem sync_dispatch_amended_witness :
    (resolve pendingObserved (.prim (.str "a"))).2
        = pendingObserved.onFulfilleds.map (fun id => (id, Val.str "a")) ∧
    (reject pendingObserved (.errObj "e")).2
        = pendingObserved.onRejecteds.map (fun id => (id, Val.errObj "e")) ∧
    (thenCall fulfilledFive (some 7) none).2 = [(7, getValue fulfilledFive)] ∧
    (thenCall rejectedBoomCell none (some 9)).2 = [(9, getReason rejectedBoomCell)] :=
  sync_dispatch_amended pendingObserved fulfilledFive rejectedBoomCell
    (.str "a") (.errObj "e") 7 9 (by decide) (by decide) (by decide) (by decide)

/-- C3: evaluation at the failing input (the scenario of src/test.js).  A
pending cell is resolved with a thenable whose `then` first calls the
provided resolve callback with a PENDING promise — the first callback
invocation, which adopts that promise and leaves this cell pending — and
then throws the error "other".  The source has no first-callback-wins
guard: the `catch` on src/promise.js line 104 calls `this.reject(err)`,
the cell is still pending, so the cell is REJECTED with "other".  The
claim (and the repository's own test, which expects the adopted promise's
eventual value) says the late throw must be ignored; instead it becomes
the settled reason. -/
theorem thenable_late_throw_becomes_reason :
    (resolve newCell (.thenable [.res (.promiseRef 1)] (some (.errObj "other")))).1.state
      = State.rejected ∧
    (resolve newCell (.thenable [.res (.promiseRef 1)] (some (.errObj "other")))).1.reasonContainer
      = some (.errObj "other") := by decide

/-- C4: evaluation at the failing input.  Line 76 of src/promise.js tests
`value == this` with LOOSE equality; the plain string
`"[object Object]"` is loosely equal to every `Promise` instance (the
object coerces via `ToPrimitive` to that very string), so succeeding a
pending cell with the plain string — a value that is NOT the cell, by
identity or otherwise — rejects the cell with the reserved
self-resolution `TypeError` instead of fulfilling it with the string.
This refutes the claim's "if and only if ... reference identity, not any
looser equality". -/
theorem loose_self_check_fires_on_plain_string :
    looseEqSelf (.prim (.str "[object Object]")) = true ∧
    (resolve newCell (.prim (.str "[object Object]"))).1.state = State.rejected ∧
    (resolve newCell (.prim (.str "[object Object]"))).1.valueContainer = none ∧
    (resolve newCell (.prim (.str "[object Object]"))).1.reasonContainer
      = some selfResolutionError := by decide

/-- C5: evaluation at the failing input.  On a cell already rejected with
the reason "boom", `then(null, onRejected)` invokes `onRejected` — but
with `undefined`, not with "boom": `_getReason` (src/promise.js line 285)
evaluates `this._reasonContainer.REASON` without a `return` statement, so
it returns `undefined` and the settled reason is never forwarded. -/
theorem rejected_reason_forwarded_as_undefined :
    (thenCall rejectedBoomCell none (some 0)).2 = [(0, Val.undefined)] ∧
    Val.undefined ≠ Val.errObj "boom" := by decide

/-- C6: evaluation of the static helpers.  `Promise.resolve` is
`return new Promise().resolve(value)` and `Promise.reject` is
`return new Promise().reject(reason)` (src/promise.js lines 374-376 and
384-386); the prototype methods return `undefined` on every exit path, so
both statics — and `exports.resolved` / `exports.rejected` of
src/adapter.js, which are those very functions — return `undefined`, not
a cell.  `then`/`catch` cannot be called on the returned value (doing so
throws a `TypeError` in JavaScript). -/
theorem static_helpers_return_undefined (v : RVal) (r : Val) (id : Nat) :
    (adapterResolved v).ret = Val.undefined ∧
    (adapterRejected r).ret = Val.undefined ∧
    Val.undefined ≠ Val.promiseRef id := by
  exact ⟨rfl, rfl, by simp⟩

/-- C7: evaluation at the failing input.  `Promise.all([])` sets
`promisesLeft` to 0 but only tests `promisesLeft == 0` inside the
per-input success callback (src/promise.js line 327), and with no inputs
the `forEach` body never runs: `resolve` is never called, no callback is
registered anywhere, and the result cell stays pending forever instead of
fulfilling immediately with an empty array. -/
theorem all_empty_never_settles :
    (promiseAll []).result.state = State.pending ∧
    (promiseAll []).result = newCell ∧
    (promiseAll []).registered = [] := by decide

/-- C8 counterexample: an input to `all` that is a plain non-thenable
value (the number 42) does NOT count as already fulfilled with itself —
`Promise.all` calls `input.then(...)` directly (src/promise.js line 323),
`(42).then` is not callable, the executor throws a `TypeError`, and
`_execute` converts the throw into a rejection of the result cell.  The
claim says the presence of such an input never causes rejection. -/
theorem all_plain_input_cex :
    (promiseAll [.plain (.num 42)]).result.state = State.rejected ∧
    (promiseAll [.plain (.num 42)]).result.reasonContainer = some thenNotAFunction := by
  decide

theorem allLoop_pending_prefix (pre : List Cell) (rest : List AInput) (st : AllRun)
    (i : Nat) (hth : st.thrown = none) (hpre : ∀ c ∈ pre, c.state = State.pending) :
    ∃ reg, allLoop st i (pre.map AInput.cell ++ rest)
      = allLoop { st with registered := reg } (i + pre.length) rest := by
  induction pre generalizing st i with
  | nil =>
    exact ⟨st.registered, by simp⟩
  | cons c pre ih =>
    obtain ⟨res, pl, arr, regs, th⟩ := st
    simp only at hth
    subst hth
    have hc : c.state = State.pending := hpre c (List.mem_cons_self c pre)
    have hrest : ∀ x ∈ pre, x.state = State.pending :=
      fun x hx => hpre x (List.mem_cons_of_mem c hx)
    obtain ⟨reg, hreg⟩ := ih ⟨res, pl, arr, regs ++ [i], none⟩ (i + 1) rfl hrest
    refine ⟨reg, ?_⟩
    simp only [List.map_cons, List.cons_append, List.append_eq, allLoop, allStep, hc,
      if_pos]
    rw [hreg]
    have harith : i + 1 + pre.length = i + (pre.length + 1) := by omega
    simp [harith]

/-- C8 (amended): a plain non-thenable input to `all` is not treated as
already fulfilled with itself; it makes the combinator's result cell
reject with a `TypeError`.  Shown for an input array of any number of
pending promise cells followed by any plain value: the executor registers
callbacks for the pending inputs, then throws on `input.then` for the
plain one, and the throw is converted into a rejection of the (still
pending) result cell. -/
theorem all_plain_input_rejects (pre : List Cell) (v : Val)
    (hpre : ∀ c ∈ pre, c.state = State.pending) :
    (promiseAll (pre.map AInput.cell ++ [AInput.plain v])).result.state
      = State.rejected ∧
    (promiseAll (pre.map AInput.cell ++ [AInput.plain v])).result.reasonContainer
      = some thenNotAFunction := by
  obtain ⟨reg, hreg⟩ := allLoop_pending_prefix pre [AInput.plain v]
    { result := newCell,
      promisesLeft := (pre.map AInput.cell ++ [AInput.plain v]).length,
      resultArr := List.replicate (pre.map AInput.cell ++ [AInput.plain v]).length none,
      registered := [], thrown := none } 0 rfl hpre
  simp only at hreg
  simp only [promiseAll, hreg]
  simp [allLoop, allStep, reject, newCell, setReason, callFailureFunctions]

/-- Witness for the amended C8 at a concrete input: one pending promise
input followed by the plain number 42. -/
theorem all_plain_input_rejects_witness :
    (promiseAll ([newCell].map AInput.cell ++ [AInput.plain (Val.num 42)])).result.state
      = State.rejected ∧
    (promiseAll ([newCell].map AInput.cell
        ++ [AInput.plain (Val.num 42)])).result.reasonContainer
      = some thenNotAFunction :=
  all_plain_input_rejects [newCell] (Val.num 42) (by decide)

/-- C9: evaluation at the failing input.  `Promise.race` over a single
input that is already rejected with the reason "boom": the input's
rejection is the first (and only) settlement event, so the claim says the
race result must reject with "boom".  Instead the result cell is rejected
with `undefined`, because `then` forwards an already-settled rejection
through `_getReason` (src/promise.js line 190), whose missing `return`
(line 285) loses the reason. -/
theorem race_settled_input_reason_lost :
    (promiseRace [.cell rejectedBoomCell]).result.state = State.rejected ∧
    (promiseRace [.cell rejectedBoomCell]).result.reasonContainer = some Val.undefined ∧
    Val.undefined ≠ Val.errObj "boom" := by decide

/-- C10: under every sequence of public-interface operations against a
freshly constructed cell — `succeed` with a value of any shape (plain,
promise, thenable with arbitrary synchronous re-entries, throwing
`then`), `fail`, `then`/`catch` registrations — the double-set throw of
`_setValue` / `_setReason` never fires (each is called at most once), at
most one of the value and reason containers is ever populated, and a
container is populated exactly when the state is the corresponding
settled state (hence only when non-pending). -/
theorem containers_exclusive_no_double_set (ops : List Op) :
    (runOps newCell ops).doubleSet = false ∧
    ¬((runOps newCell ops).valueContainer.isSome
        ∧ (runOps newCell ops).reasonContainer.isSome) ∧
    ((runOps newCell ops).valueContainer.isSome
        ↔ (runOps newCell ops).state = State.fulfilled) ∧
    ((runOps newCell ops).reasonContainer.isSome
        ↔ (runOps newCell ops).state = State.rejected) := by
  obtain ⟨h1, h2, h3⟩ := runOps_inv newCell ops inv_newCell
  refine ⟨h1, ?_, h2, h3⟩
  rintro ⟨hv, hr⟩
  rw [h2] at hv
  rw [h3] at hr
  rw [hv] at hr
  exact State.noConfusion hr

end Promises
